import Mathlib

/-!
Shallow embedding of the Reviewer-FAST backend (Python, FastAPI + ChromaDB)
and verification of its specification claims.

Source files embedded:
  backend/services/vector_store.py    (find_similar_code, store_feedback,
                                       get_recent_reviews, get_review)
  backend/services/review_service.py  (generate_review, _parse_llm_response,
                                       _build_review_prompt)
  backend/services/diff_parser.py     (get_file_context)
  backend/services/stats_service.py   (get_statistics)
  backend/api/feedback.py             (submit_feedback)

External effects (the ChromaDB collection, the LLM, the clock, uuid
generation) are modelled as explicit inputs: the suggestions collection is a
list of records, a ChromaDB similarity query is an input list ranked by
similarity, the LLM response is an input string/decoded value, and
timestamps are input strings.
-/

namespace ReviewerFast

/-- A ChromaDB metadata dictionary as used by this code base.  Every field the
Python code ever reads or writes is present; `none` models an absent key, so
`m.field.getD d` is Python's `metadata.get("field", d)`. -/
structure Metadata where
  review_id : Option String := none
  file_path : Option String := none
  suggestion_id : Option String := none
  suggestion : Option String := none
  category : Option String := none
  confidence : Option Int := none
  line_number : Option Int := none
  action : Option String := none
  reason : Option String := none
  timestamp : Option String := none
  feedback_timestamp : Option String := none
  edited_suggestion : Option String := none
deriving Repr, DecidableEq

/-- One record of the ChromaDB `suggestions` collection: its id, its document
(the stored code context) and its metadata. -/
structure StoreRec where
  doc_id : String
  document : String
  metadata : Metadata
deriving Repr, DecidableEq

/-- The `suggestions` collection, as a list of records. -/
abbrev Store := List StoreRec

/-- `action in ["accept", "reject", "edit"]` (vector_store.py line 65). -/
def isTerminalAction (a : String) : Bool :=
  a == "accept" || a == "reject" || a == "edit"

/-- An entry of the list returned by `find_similar_code`
(vector_store.py lines 66-73). -/
structure SimilarReview where
  code_context : String
  suggestion : String
  action : String
  reason : String
  category : String
  confidence : Int
deriving Repr, DecidableEq

/-- Builds the dict appended to `similar_reviews` (vector_store.py 66-73). -/
def mkSimilarReview (doc : String) (md : Metadata) (action : String) : SimilarReview :=
  { code_context := doc
    suggestion := md.suggestion.getD ""
    action := action
    reason := md.reason.getD ""
    category := md.category.getD ""
    confidence := md.confidence.getD 0 }

/-- The filtering loop of `find_similar_code` (vector_store.py 59-77):
for each query result in order, read `action = metadata.get("action",
"pending")`, append the entry when the action is terminal, and break as soon
as `len(similar_reviews) >= limit`. -/
def similarLoop (limit : Nat) : List (String × Metadata) → List SimilarReview → List SimilarReview
  | [], acc => acc
  | (doc, md) :: rest, acc =>
    let action := md.action.getD "pending"
    let acc2 := if isTerminalAction action then acc ++ [mkSimilarReview doc md action] else acc
    if limit ≤ acc2.length then acc2 else similarLoop limit rest acc2

/-- `find_similar_code` (vector_store.py 30-84).  `ranked` is the corpus in
the similarity order that the ChromaDB query would return for the query text;
the query is issued with `n_results = min(limit * 3, 20)`, so the loop sees
only the first `min (limit * 3) 20` results. -/
def find_similar_code (ranked : List (String × Metadata)) (limit : Nat) : List SimilarReview :=
  similarLoop limit (ranked.take (min (limit * 3) 20)) []

lemma similarLoop_terminal (limit : Nat) (l : List (String × Metadata))
    (acc : List SimilarReview) (h : ∀ r ∈ acc, isTerminalAction r.action = true) :
    ∀ r ∈ similarLoop limit l acc, isTerminalAction r.action = true := by
  induction l generalizing acc with
  | nil => simpa [similarLoop] using h
  | cons hd tl ih =>
    obtain ⟨doc, md⟩ := hd
    have hstep : ∀ acc2 : List SimilarReview,
        (∀ r ∈ acc2, isTerminalAction r.action = true) →
        ∀ r ∈ (if limit ≤ acc2.length then acc2 else similarLoop limit tl acc2),
          isTerminalAction r.action = true := by
      intro acc2 hacc2 r hr
      by_cases hlim : limit ≤ acc2.length
      · rw [if_pos hlim] at hr
        exact hacc2 r hr
      · rw [if_neg hlim] at hr
        exact ih acc2 hacc2 r hr
    simp only [similarLoop]
    apply hstep
    intro r hr
    by_cases hterm : isTerminalAction (md.action.getD "pending") = true
    · rw [if_pos hterm] at hr
      rcases List.mem_append.mp hr with h1 | h2
      · exact h r h1
      · simp only [List.mem_singleton] at h2
        subst h2
        simpa [mkSimilarReview] using hterm
    · rw [if_neg hterm] at hr
      exact h r hr

lemma similarLoop_length (limit : Nat) (l : List (String × Metadata))
    (acc : List SimilarReview) (h : acc.length < limit) :
    (similarLoop limit l acc).length ≤ limit := by
  induction l generalizing acc with
  | nil => simpa [similarLoop] using Nat.le_of_lt h
  | cons hd tl ih =>
    obtain ⟨doc, md⟩ := hd
    have hstep : ∀ acc2 : List SimilarReview, acc2.length ≤ limit →
        (if limit ≤ acc2.length then acc2 else similarLoop limit tl acc2).length ≤ limit := by
      intro acc2 hacc2
      by_cases hlim : limit ≤ acc2.length
      · rw [if_pos hlim]
        exact hacc2
      · rw [if_neg hlim]
        exact ih acc2 (not_le.mp hlim)
    simp only [similarLoop]
    apply hstep
    by_cases hterm : isTerminalAction (md.action.getD "pending") = true
    · rw [if_pos hterm]
      simpa [List.length_append] using h
    · rw [if_neg hterm]
      exact Nat.le_of_lt h

/-- C1: `find_similar_code` returns only records whose action state is
terminal (accept, reject or edit) — in particular never `"pending"`, which is
also the default used when no action is recorded — and returns at most
`limit` records, for every ranked query-result list and every limit. -/
theorem find_similar_code_terminal_and_limited
    (ranked : List (String × Metadata)) (limit : Nat) :
    (∀ r ∈ find_similar_code ranked limit, isTerminalAction r.action = true) ∧
    (∀ r ∈ find_similar_code ranked limit, r.action ≠ "pending") ∧
    (find_similar_code ranked limit).length ≤ limit := by
  have hterm : ∀ r ∈ find_similar_code ranked limit, isTerminalAction r.action = true := by
    intro r hr
    exact similarLoop_terminal limit _ [] (by intro r h; simp at h) r hr
  refine ⟨hterm, ?_, ?_⟩
  · intro r hr hpend
    have := hterm r hr
    rw [hpend] at this
    simp [isTerminalAction] at this
  · rcases Nat.eq_zero_or_pos limit with h0 | hpos
    · subst h0
      simp [find_similar_code, similarLoop]
    · exact similarLoop_length limit _ [] (by simpa using hpos)

/-- A concrete record with terminal action, used by witnesses. -/
def mdAccepted : Metadata :=
  { review_id := some "r1", suggestion_id := some "s1", suggestion := some "use a set",
    action := some "accept", category := some "performance", confidence := some 80 }

/-- A concrete record with no feedback yet, used by witnesses. -/
def mdPending : Metadata :=
  { review_id := some "r1", suggestion_id := some "s2", suggestion := some "rename x",
    action := some "pending", category := some "style", confidence := some 40 }

/-- Witness for C1 at a concrete corpus: the single returned entry has a
terminal, non-pending action and the result length is within the limit. -/
theorem find_similar_code_terminal_and_limited_witness :
    mkSimilarReview "ctx" mdAccepted "accept" ∈
      find_similar_code [("ctx", mdAccepted), ("ctx2", mdPending)] 3 ∧
    isTerminalAction (mkSimilarReview "ctx" mdAccepted "accept").action = true ∧
    (mkSimilarReview "ctx" mdAccepted "accept").action ≠ "pending" := by
  refine ⟨by decide, ?_, ?_⟩
  · exact (find_similar_code_terminal_and_limited
        [("ctx", mdAccepted), ("ctx2", mdPending)] 3).1 _ (by decide)
  · exact (find_similar_code_terminal_and_limited
        [("ctx", mdAccepted), ("ctx2", mdPending)] 3).2.1 _ (by decide)
/-- The `where={"review_id": rid, "suggestion_id": sid}` filter used by
`store_feedback` (vector_store.py 133-135). -/
def matchesIds (rid sid : String) (r : StoreRec) : Bool :=
  r.metadata.review_id == some rid && r.metadata.suggestion_id == some sid

/-- The metadata update built by `store_feedback` (vector_store.py 142-149):
set `action`, `reason` (`reason or ""`), `feedback_timestamp`; and only when
`edited_suggestion` is truthy (neither `None` nor the empty string) also
overwrite `edited_suggestion` and `suggestion`. -/
def updateFeedbackMd (md : Metadata) (action : String) (reason : Option String)
    (edited : Option String) (now : String) : Metadata :=
  let base : Metadata :=
    { md with
      action := some action
      reason := some (reason.getD "")
      feedback_timestamp := some now }
  match edited with
  | none => base
  | some e =>
    if e = "" then base
    else { base with edited_suggestion := some e, suggestion := some e }

/-- `store_feedback` (vector_store.py 120-159): look up the first record
matching both ids; if none, log a warning and change nothing; otherwise
update that document's metadata in place (ChromaDB `update` by id). -/
def store_feedback (store : Store) (rid sid : String) (action : String)
    (reason : Option String) (edited : Option String) (now : String) : Store :=
  match store.find? (matchesIds rid sid) with
  | none => store
  | some r =>
    store.map fun x =>
      if x.doc_id = r.doc_id then
        { x with metadata := updateFeedbackMd r.metadata action reason edited now }
      else x

lemma updateFeedbackMd_review_id (md : Metadata) (a : String) (rr e : Option String)
    (t : String) : (updateFeedbackMd md a rr e t).review_id = md.review_id := by
  cases e with
  | none => rfl
  | some s =>
    simp only [updateFeedbackMd]
    split <;> rfl

lemma updateFeedbackMd_suggestion_id (md : Metadata) (a : String) (rr e : Option String)
    (t : String) : (updateFeedbackMd md a rr e t).suggestion_id = md.suggestion_id := by
  cases e with
  | none => rfl
  | some s =>
    simp only [updateFeedbackMd]
    split <;> rfl

lemma updateFeedbackMd_action (md : Metadata) (a : String) (rr e : Option String)
    (t : String) : (updateFeedbackMd md a rr e t).action = some a := by
  cases e with
  | none => rfl
  | some s =>
    simp only [updateFeedbackMd]
    split <;> rfl

lemma updateFeedbackMd_reason (md : Metadata) (a : String) (rr e : Option String)
    (t : String) : (updateFeedbackMd md a rr e t).reason = some (rr.getD "") := by
  cases e with
  | none => rfl
  | some s =>
    simp only [updateFeedbackMd]
    split <;> rfl

lemma updateFeedbackMd_fts (md : Metadata) (a : String) (rr e : Option String)
    (t : String) : (updateFeedbackMd md a rr e t).feedback_timestamp = some t := by
  cases e with
  | none => rfl
  | some s =>
    simp only [updateFeedbackMd]
    split <;> rfl

lemma updateFeedbackMd_none_edit (md : Metadata) (a : String) (rr : Option String)
    (t : String) : updateFeedbackMd md a rr none t =
      { md with
        action := some a
        reason := some (rr.getD "")
        feedback_timestamp := some t } := rfl

lemma updateFeedbackMd_empty_edit (md : Metadata) (a : String) (rr : Option String)
    (t : String) : updateFeedbackMd md a rr (some "") t =
      { md with
        action := some a
        reason := some (rr.getD "")
        feedback_timestamp := some t } := by
  simp [updateFeedbackMd]

lemma matchesIds_of_update (rid sid : String) (r : StoreRec) (a : String)
    (rr e : Option String) (t : String) (h : matchesIds rid sid r = true) :
    matchesIds rid sid { r with metadata := updateFeedbackMd r.metadata a rr e t } = true := by
  simp only [matchesIds, Bool.and_eq_true, beq_iff_eq] at h ⊢
  rw [updateFeedbackMd_review_id, updateFeedbackMd_suggestion_id]
  exact h

lemma store_feedback_doc_ids (store : Store) (rid sid a : String)
    (rr e : Option String) (t : String) :
    (store_feedback store rid sid a rr e t).map StoreRec.doc_id = store.map StoreRec.doc_id := by
  unfold store_feedback
  cases hfind : store.find? (matchesIds rid sid) with
  | none => rfl
  | some r =>
    rw [List.map_map]
    apply List.map_congr_left
    intro y hy
    by_cases h : y.doc_id = r.doc_id <;> simp [Function.comp, h]

lemma find?_store_feedback (rid sid a : String) (rr e : Option String) (t : String) :
    ∀ store : Store, (store.map StoreRec.doc_id).Nodup →
    ∀ r0, store.find? (matchesIds rid sid) = some r0 →
    (store_feedback store rid sid a rr e t).find? (matchesIds rid sid) =
      some { r0 with metadata := updateFeedbackMd r0.metadata a rr e t } := by
  intro store
  induction store with
  | nil =>
    intro _ r0 h
    simp at h
  | cons x rest ih =>
    intro hnd r0 hfind
    have hndrest : (rest.map StoreRec.doc_id).Nodup := (List.nodup_cons.mp hnd).2
    have hxnotin : x.doc_id ∉ rest.map StoreRec.doc_id := (List.nodup_cons.mp hnd).1
    by_cases hx : matchesIds rid sid x = true
    · have hx_eq : x = r0 := by
        rw [List.find?_cons_of_pos _ hx] at hfind
        exact Option.some_inj.mp hfind
      subst hx_eq
      have hrest_id : ∀ y ∈ rest, y.doc_id ≠ x.doc_id := by
        intro y hy heq
        apply hxnotin
        rw [← heq]
        exact List.mem_map_of_mem _ hy
      have hunfold : store_feedback (x :: rest) rid sid a rr e t =
          { x with metadata := updateFeedbackMd x.metadata a rr e t } :: rest := by
        unfold store_feedback
        rw [List.find?_cons_of_pos _ hx]
        dsimp only
        rw [List.map_cons]
        congr 1
        · rw [if_pos rfl]
        · have hforall : ∀ y ∈ rest,
              (if y.doc_id = x.doc_id then
                { y with metadata := updateFeedbackMd x.metadata a rr e t } else y) = id y := by
            intro y hy
            rw [if_neg (hrest_id y hy)]
            rfl
          rw [List.map_congr_left hforall, List.map_id]
      rw [hunfold]
      exact List.find?_cons_of_pos _ (matchesIds_of_update rid sid x a rr e t hx)
    · rw [List.find?_cons_of_neg _ hx] at hfind
      have hr0mem : r0 ∈ rest := List.mem_of_find?_eq_some hfind
      have hxid : x.doc_id ≠ r0.doc_id := by
        intro heq
        apply hxnotin
        rw [heq]
        exact List.mem_map_of_mem _ hr0mem
      have hunfold : store_feedback (x :: rest) rid sid a rr e t =
          x :: store_feedback rest rid sid a rr e t := by
        unfold store_feedback
        rw [List.find?_cons_of_neg _ hx, hfind]
        dsimp only
        rw [List.map_cons, if_neg hxid]
      rw [hunfold, List.find?_cons_of_neg _ hx]
      exact ih hndrest r0 hfind

/-- C3: applying `store_feedback` twice to the same existing
(review_id, suggestion_id) pair leaves only the second action, reason and
feedback timestamp observable on the matching record (last write wins, no
history kept); applying it to a pair with no matching record changes no
stored record and returns without raising.  The Nodup hypothesis states
that ChromaDB document ids are unique. -/
theorem store_feedback_last_write_wins
    (store : Store) (rid sid a1 a2 : String) (r1 r2 e1 e2 : Option String) (t1 t2 : String) :
    ((store.map StoreRec.doc_id).Nodup →
      ∀ r0, store.find? (matchesIds rid sid) = some r0 →
      ∃ rec, (store_feedback (store_feedback store rid sid a1 r1 e1 t1)
          rid sid a2 r2 e2 t2).find? (matchesIds rid sid) = some rec ∧
        rec.metadata.action = some a2 ∧
        rec.metadata.reason = some (r2.getD "") ∧
        rec.metadata.feedback_timestamp = some t2) ∧
    (store.find? (matchesIds rid sid) = none →
      store_feedback store rid sid a1 r1 e1 t1 = store) := by
  constructor
  · intro hnd r0 hfind
    have h1 := find?_store_feedback rid sid a1 r1 e1 t1 store hnd r0 hfind
    have hnd1 : ((store_feedback store rid sid a1 r1 e1 t1).map StoreRec.doc_id).Nodup := by
      rw [store_feedback_doc_ids]
      exact hnd
    have h2 := find?_store_feedback rid sid a2 r2 e2 t2 _ hnd1 _ h1
    refine ⟨_, h2, ?_, ?_, ?_⟩
    · exact updateFeedbackMd_action (updateFeedbackMd r0.metadata a1 r1 e1 t1) a2 r2 e2 t2
    · exact updateFeedbackMd_reason (updateFeedbackMd r0.metadata a1 r1 e1 t1) a2 r2 e2 t2
    · exact updateFeedbackMd_fts (updateFeedbackMd r0.metadata a1 r1 e1 t1) a2 r2 e2 t2
  · intro hnone
    unfold store_feedback
    rw [hnone]

/-- A concrete pending-feedback record used by the store_feedback witnesses. -/
def wRec : StoreRec :=
  { doc_id := "r1_app.py_s2", document := "ctx", metadata := mdPending }

/-- A concrete one-record store used by the store_feedback witnesses. -/
def wStore : Store := [wRec]

/-- Witness for C3 at a concrete store: after accept-then-reject feedback on
the same suggestion, only the reject with its reason and timestamp is
observable; and feedback on an id pair with no record is a no-op. -/
theorem store_feedback_last_write_wins_witness :
    ((wStore.map StoreRec.doc_id).Nodup ∧
      wStore.find? (matchesIds "r1" "s2") = some wRec ∧
      ∃ rec, (store_feedback (store_feedback wStore "r1" "s2" "accept" none none "t1")
          "r1" "s2" "reject" (some "noisy") none "t2").find? (matchesIds "r1" "s2") = some rec ∧
        rec.metadata.action = some "reject" ∧
        rec.metadata.reason = some "noisy" ∧
        rec.metadata.feedback_timestamp = some "t2") ∧
    (wStore.find? (matchesIds "r9" "s9") = none ∧
      store_feedback wStore "r9" "s9" "accept" none none "t1" = wStore) := by
  constructor
  · refine ⟨by decide, by decide, ?_⟩
    exact (store_feedback_last_write_wins wStore "r1" "s2" "accept" "reject"
        none (some "noisy") none none "t1" "t2").1 (by decide) wRec (by decide)
  · exact ⟨by decide,
      (store_feedback_last_write_wins wStore "r9" "s9" "accept" "reject"
        none (some "noisy") none none "t1" "t2").2 (by decide)⟩

/-- C10: when the edited suggestion is `None` or the empty string, Python's
truthiness test treats it as "no edit provided": the matching record keeps
its `suggestion` and `edited_suggestion` fields (and every other field not
named here) unchanged, while `action`, `reason` and `feedback_timestamp` are
still updated. -/
theorem store_feedback_empty_edit_is_no_edit
    (store : Store) (rid sid a : String) (rr e : Option String) (t : String)
    (he : e = none ∨ e = some "") :
    (store.map StoreRec.doc_id).Nodup →
    ∀ r0, store.find? (matchesIds rid sid) = some r0 →
    (store_feedback store rid sid a rr e t).find? (matchesIds rid sid) =
      some { r0 with metadata :=
        { r0.metadata with
          action := some a
          reason := some (rr.getD "")
          feedback_timestamp := some t } } := by
  intro hnd r0 hfind
  have h := find?_store_feedback rid sid a rr e t store hnd r0 hfind
  rcases he with he | he <;> subst he
  · rwa [updateFeedbackMd_none_edit] at h
  · rwa [updateFeedbackMd_empty_edit] at h

/-- Witness for C10 at a concrete store: empty-string edit leaves
`suggestion` and `edited_suggestion` as they were and updates the rest. -/
theorem store_feedback_empty_edit_is_no_edit_witness :
    ((some "" : Option String) = none ∨ (some "" : Option String) = some "") ∧
    (wStore.map StoreRec.doc_id).Nodup ∧
    wStore.find? (matchesIds "r1" "s2") = some wRec ∧
    (store_feedback wStore "r1" "s2" "edit" none (some "") "t3").find? (matchesIds "r1" "s2") =
      some { wRec with metadata :=
        { wRec.metadata with
          action := some "edit"
          reason := some ""
          feedback_timestamp := some "t3" } } := by
  refine ⟨Or.inr rfl, by decide, by decide, ?_⟩
  exact store_feedback_empty_edit_is_no_edit wStore "r1" "s2" "edit" none (some "") "t3"
    (Or.inr rfl) (by decide) wRec (by decide)

/-- A generated review suggestion (backend/models.py).  The `id` field is a
fresh `uuid4` string in the source; uuid generation is external
nondeterminism and the field is not modelled (no claim mentions it). -/
structure Suggestion where
  line_number : Int
  end_line_number : Option Int := none
  file_path : String
  category : String
  suggestion : String
  confidence : Int
  code_snippet : String
deriving Repr, DecidableEq

/-- `generate_review` (review_service.py 31-52) after the external LLM calls:
`file_results` holds the per-file suggestion lists returned by `_review_file`
for each file of the parsed diff, in order.  The loop extends
`all_suggestions` with each list, then the comprehension keeps exactly the
suggestions with `s.confidence >= self.min_confidence`. -/
def generate_review (file_results : List (List Suggestion)) (min_confidence : Int) :
    List Suggestion :=
  let all_suggestions := file_results.foldl (fun acc l => acc ++ l) []
  all_suggestions.filter (fun s => decide (min_confidence ≤ s.confidence))

lemma foldl_append_eq_join (ls : List (List Suggestion)) :
    ∀ acc, ls.foldl (fun acc l => acc ++ l) acc = acc ++ ls.flatten := by
  induction ls with
  | nil =>
    intro acc
    simp
  | cons hd tl ih =>
    intro acc
    simp [ih, List.append_assoc]

/-- C5: for every distribution of per-file results and confidences,
`generate_review` returns no suggestion whose confidence is below the
configured minimum, and returns every generated suggestion whose confidence
is at or above it. -/
theorem generate_review_confidence_filter
    (file_results : List (List Suggestion)) (min_confidence : Int) :
    (∀ s ∈ generate_review file_results min_confidence, min_confidence ≤ s.confidence) ∧
    (∀ s ∈ file_results.flatten, min_confidence ≤ s.confidence →
      s ∈ generate_review file_results min_confidence) := by
  unfold generate_review
  rw [foldl_append_eq_join]
  simp only [List.nil_append]
  constructor
  · intro s hs
    have := (List.mem_filter.mp hs).2
    exact of_decide_eq_true this
  · intro s hs hconf
    exact List.mem_filter.mpr ⟨hs, decide_eq_true hconf⟩

/-- Concrete suggestions used by witnesses. -/
def sugHigh : Suggestion :=
  { line_number := 3, file_path := "a.py", category := "bug",
    suggestion := "fix off by one", confidence := 80, code_snippet := "x" }

/-- A low-confidence concrete suggestion used by witnesses. -/
def sugLow : Suggestion :=
  { line_number := 7, file_path := "b.py", category := "style",
    suggestion := "rename", confidence := 10, code_snippet := "y" }

/-- Witness for C5 at a concrete diff result: the high-confidence suggestion
from the joined per-file results is kept. -/
theorem generate_review_confidence_filter_witness :
    sugHigh ∈ ([[sugHigh], [sugLow]] : List (List Suggestion)).flatten ∧
    (30 : Int) ≤ sugHigh.confidence ∧
    sugHigh ∈ generate_review [[sugHigh], [sugLow]] 30 := by
  refine ⟨by decide, by decide, ?_⟩
  exact (generate_review_confidence_filter [[sugHigh], [sugLow]] 30).2 sugHigh
    (by decide) (by decide)

/-- A scalar Python value decoded from JSON (`json.loads`). -/
inductive PyVal where
  | null
  | pbool (b : Bool)
  | pint (n : Int)
  | pstr (s : String)
deriving Repr, DecidableEq

/-- A Python value decoded by `json.loads` from the (markdown-stripped) LLM
response.  Containers nested inside objects are needed by no claim and are
not modelled: object fields hold scalar values. -/
inductive PyJson where
  | atom (v : PyVal)
  | arr (items : List PyJson)
  | obj (fields : List (String × PyVal))

/-- `sug_data.get(key, default)` for an int-typed Suggestion field.
A Python bool is an int (True == 1).  A present value of any other type is
modelled as a pydantic validation failure; no claim depends on pydantic's
coercion rules for such values. -/
def getIntField (fields : List (String × PyVal)) (key : String) (dflt : Int) :
    Except Unit Int :=
  match fields.lookup key with
  | none => .ok dflt
  | some (.pint n) => .ok n
  | some (.pbool b) => .ok (if b then 1 else 0)
  | some _ => .error ()

/-- `sug_data.get("end_line_number")`: absent or null gives `None`. -/
def getOptIntField (fields : List (String × PyVal)) (key : String) :
    Except Unit (Option Int) :=
  match fields.lookup key with
  | none => .ok none
  | some .null => .ok none
  | some (.pint n) => .ok (some n)
  | some (.pbool b) => .ok (some (if b then 1 else 0))
  | some _ => .error ()

/-- `sug_data.get(key, default)` for a str-typed Suggestion field. -/
def getStrField (fields : List (String × PyVal)) (key : String) (dflt : String) :
    Except Unit String :=
  match fields.lookup key with
  | none => .ok dflt
  | some (.pstr s) => .ok s
  | some _ => .error ()

/-- Construction of one `Suggestion(...)` from one decoded item
(review_service.py 208-217).  An item that is not a dict has no `.get`
attribute, so construction raises (AttributeError), modelled as `.error`. -/
def mkSuggestion (item : PyJson) (fp : String) : Except Unit Suggestion :=
  match item with
  | .obj fields => do
    let ln ← getIntField fields "line_number" 0
    let eln ← getOptIntField fields "end_line_number"
    let cat ← getStrField fields "category" "best_practice"
    let sug ← getStrField fields "suggestion" ""
    let conf ← getIntField fields "confidence" 50
    let snip ← getStrField fields "code_snippet" ""
    pure { line_number := ln, end_line_number := eln, file_path := fp,
           category := cat, suggestion := sug, confidence := conf, code_snippet := snip }
  | _ => .error ()

/-- The `for sug_data in suggestions_data` loop (review_service.py 207-218):
append each successfully constructed suggestion; the first construction
failure raises out of the loop into the generic `except`, which logs and
falls through to `return suggestions`, i.e. returns what was built so far. -/
def buildSuggestions (fp : String) : List PyJson → List Suggestion → List Suggestion
  | [], acc => acc
  | item :: rest, acc =>
    match mkSuggestion item fp with
    | .ok s => buildSuggestions fp rest (acc ++ [s])
    | .error _ => acc

/-- Python iteration over the decoded value: a list yields its items, a dict
yields its keys, a string yields its one-character substrings, anything else
raises TypeError (caught by the generic `except`, giving `[]`). -/
def pyIter : PyJson → Option (List PyJson)
  | .arr items => some items
  | .obj fields => some (fields.map fun kv => PyJson.atom (PyVal.pstr kv.fst))
  | .atom (.pstr s) => some (s.data.map fun c => PyJson.atom (PyVal.pstr (String.mk [c])))
  | .atom _ => none

/-- `_parse_llm_response` (review_service.py 182-225) after the markdown
code-fence stripping: `decoded` is the outcome of `json.loads` on the
stripped response (`.error` = JSONDecodeError).  Every failure path returns
the `suggestions` list accumulated so far instead of raising: JSONDecodeError
and a non-iterable decoded value give `[]`; a per-item construction failure
stops the loop.  The function's total Lean type records that it never raises
to its caller. -/
def parse_llm_response (decoded : Except Unit PyJson) (fp : String) : List Suggestion :=
  match decoded with
  | .error _ => []
  | .ok j =>
    match pyIter j with
    | none => []
    | some items => buildSuggestions fp items []

lemma buildSuggestions_eq_takeWhile (fp : String) (items : List PyJson) :
    ∀ acc, buildSuggestions fp items acc =
      acc ++ (items.takeWhile fun it => (mkSuggestion it fp).toOption.isSome).filterMap
        (fun it => (mkSuggestion it fp).toOption) := by
  induction items with
  | nil =>
    intro acc
    simp [buildSuggestions]
  | cons item rest ih =>
    intro acc
    cases hmk : mkSuggestion item fp with
    | ok s =>
      have hcond : ((mkSuggestion item fp).toOption.isSome : Bool) = true := by
        rw [hmk]
        rfl
      rw [buildSuggestions, hmk]
      dsimp only
      rw [ih, List.takeWhile_cons, hcond]
      simp only [if_true]
      rw [List.filterMap_cons]
      rw [hmk]
      simp [Except.toOption, List.append_assoc]
    | error e =>
      have hcond : ((mkSuggestion item fp).toOption.isSome : Bool) = false := by
        rw [hmk]
        rfl
      rw [buildSuggestions, hmk]
      dsimp only
      rw [List.takeWhile_cons, hcond]
      simp

/-- C2 (amended): `_parse_llm_response` never raises to its caller (it is a
total function into suggestion lists); malformed JSON gives `[]`; a decoded
value that is not iterable gives `[]`; and over a decoded array it returns
the suggestions built from the longest prefix of items that construct
successfully — a per-item failure returns that prefix, not necessarily `[]`. -/
theorem parse_llm_response_partial_failure (fp : String) :
    (∀ err : Unit, parse_llm_response (.error err) fp = []) ∧
    (∀ j : PyJson, pyIter j = none → parse_llm_response (.ok j) fp = []) ∧
    (∀ items : List PyJson, parse_llm_response (.ok (.arr items)) fp =
      (items.takeWhile fun it => (mkSuggestion it fp).toOption.isSome).filterMap
        (fun it => (mkSuggestion it fp).toOption)) := by
  refine ⟨fun err => rfl, ?_, ?_⟩
  · intro j hj
    unfold parse_llm_response
    dsimp only
    rw [hj]
  · intro items
    unfold parse_llm_response
    show buildSuggestions fp items [] = _
    rw [buildSuggestions_eq_takeWhile]
    simp

/-- A well-formed decoded suggestion item, used by C2 witnesses. -/
def goodItem : PyJson :=
  PyJson.obj [("line_number", PyVal.pint 3), ("category", PyVal.pstr "bug"),
    ("suggestion", PyVal.pstr "fix off by one"), ("confidence", PyVal.pint 90),
    ("code_snippet", PyVal.pstr "x")]

/-- The suggestion `goodItem` parses to for file `"a.py"`. -/
def goodSuggestion : Suggestion :=
  { line_number := 3, file_path := "a.py", category := "bug",
    suggestion := "fix off by one", confidence := 90, code_snippet := "x" }

/-- Counterexample to C2 as stated: in `[goodItem, 42]` the second item's
construction fails (an int has no `.get`), yet the function returns the
one-element prefix built before the failure, not the empty list the claim
requires. -/
theorem parse_llm_response_prefix_not_empty :
    mkSuggestion (PyJson.atom (PyVal.pint 42)) "a.py" = .error () ∧
    parse_llm_response (.ok (.arr [goodItem, PyJson.atom (PyVal.pint 42)])) "a.py" =
      [goodSuggestion] ∧
    [goodSuggestion] ≠ ([] : List Suggestion) := by
  refine ⟨rfl, ?_, by decide⟩
  rfl

/-- Witness for the amended C2 at concrete inputs: a JSON decode error and a
non-iterable decoded value both give the empty list, and a decoded array
gives the takeWhile prefix. -/
theorem parse_llm_response_partial_failure_witness :
    parse_llm_response (.error ()) "a.py" = [] ∧
    (pyIter (PyJson.atom PyVal.null) = none ∧
      parse_llm_response (.ok (PyJson.atom PyVal.null)) "a.py" = []) ∧
    parse_llm_response (.ok (PyJson.arr [goodItem, PyJson.atom (PyVal.pint 42)])) "a.py" =
      (([goodItem, PyJson.atom (PyVal.pint 42)].takeWhile
          fun it => (mkSuggestion it "a.py").toOption.isSome).filterMap
        (fun it => (mkSuggestion it "a.py").toOption)) := by
  refine ⟨(parse_llm_response_partial_failure "a.py").1 (), ⟨rfl, ?_⟩, ?_⟩
  · exact (parse_llm_response_partial_failure "a.py").2.1 (PyJson.atom PyVal.null) rfl
  · exact (parse_llm_response_partial_failure "a.py").2.2 [goodItem, PyJson.atom (PyVal.pint 42)]

/-- The request body of `POST /api/feedback` (backend/api/feedback.py 12-17). -/
structure FeedbackRequest where
  review_id : String
  suggestion_id : String
  action : String
  reason : Option String := none
  edited_suggestion : Option String := none
deriving Repr, DecidableEq

/-- The observable outcome of the endpoint: a success body or an HTTP error
status with its detail string. -/
inductive ApiResult where
  | success (message : String)
  | httpError (status : Nat) (detail : String)
deriving Repr, DecidableEq

/-- `submit_feedback` (backend/api/feedback.py 23-52).  The whole handler body
sits in a `try` whose `except Exception as e` re-raises
`HTTPException(status_code=500, detail=str(e))`.  `fastapi.HTTPException` is
an `Exception` subclass, so the `HTTPException(400, ...)` raised for an
invalid action is caught by that blanket handler and surfaces as a 500 whose
detail is `str(e) = "400: Invalid action. ..."`.  `process_feedback` only
calls `store_feedback`, which swallows its own errors, so the valid-action
path returns the success body. -/
def submit_feedback (store : Store) (req : FeedbackRequest) (now : String) :
    ApiResult × Store :=
  if isTerminalAction req.action then
    (ApiResult.success ("Feedback " ++ req.action ++ "ed successfully"),
     store_feedback store req.review_id req.suggestion_id req.action
       req.reason req.edited_suggestion now)
  else
    (ApiResult.httpError 500
      "400: Invalid action. Must be \x27accept\x27, \x27reject\x27, or \x27edit\x27",
     store)

/-- The HTTP status of an endpoint outcome: `none` for a success body. -/
def apiStatus : ApiResult → Option Nat
  | ApiResult.success _ => none
  | ApiResult.httpError status _ => some status

/-- C4 (code bug): a request whose action is outside the enum is answered
with HTTP 500, not the intended 400 — the `HTTPException(400)` raised inside
the `try` block is caught by the blanket `except Exception` handler and
re-raised as a 500.  Evaluated at the concrete failing input
`action = "approve"`. -/
theorem submit_feedback_invalid_action_gives_500 :
    apiStatus (submit_feedback wStore
        { review_id := "r1", suggestion_id := "s2", action := "approve" } "t1").1 =
      some 500 ∧
    (submit_feedback wStore
        { review_id := "r1", suggestion_id := "s2", action := "approve" } "t1").1 =
      ApiResult.httpError 500
        "400: Invalid action. Must be \x27accept\x27, \x27reject\x27, or \x27edit\x27" ∧
    (submit_feedback wStore
        { review_id := "r1", suggestion_id := "s2", action := "approve" } "t1").2 =
      wStore := by
  exact ⟨rfl, rfl, rfl⟩

/-- One line of a parsed hunk (diff_parser.py 55-60): its type ('+', '-' or
' '), its text, and its source/target line numbers (`None` for lines absent
from that side).  unidiff numbers lines from 1, so a present line number is
positive in every diff produced by `parse`. -/
structure DiffLine where
  line_type : String
  value : String
  source_line_no : Option Int := none
  target_line_no : Option Int := none
deriving Repr, DecidableEq

/-- One hunk dictionary (diff_parser.py 46-52). -/
structure Hunk where
  source_start : Int
  source_length : Int
  target_start : Int
  target_length : Int
  lines : List DiffLine
deriving Repr, DecidableEq

/-- `FileChange` (diff_parser.py 9-15). -/
structure FileChange where
  path : String
  additions : Int
  deletions : Int
  hunks : List Hunk
deriving Repr, DecidableEq

/-- `ParsedDiff` (diff_parser.py 17-21). -/
structure ParsedDiff where
  files : List FileChange
  raw_content : String
deriving Repr, DecidableEq

/-- The `f"{line['target_line_no']}: {line['value']}"` format. -/
def fmtContextLine (t : Int) (v : String) : String :=
  toString t ++ ": " ++ v

/-- The nested loop of `get_file_context` on one file (diff_parser.py 89-94):
keep a line when `line["target_line_no"]` is truthy (not `None` and not `0`)
and `abs(target_line_no - line_number) <= context_lines`. -/
def fileContextLines (fc : FileChange) (n w : Int) : List String :=
  (fc.hunks.flatMap Hunk.lines).filterMap fun l =>
    match l.target_line_no with
    | none => none
    | some t => if t ≠ 0 ∧ |t - n| ≤ w then some (fmtContextLine t l.value) else none

/-- The file loop of `get_file_context` (diff_parser.py 87-95): the first
file whose path matches returns its joined context; no match returns "". -/
def findFileContext (path : String) (n w : Int) : List FileChange → String
  | [] => ""
  | fc :: rest =>
    if fc.path = path then String.intercalate "\n" (fileContextLines fc n w)
    else findFileContext path n w rest

/-- `get_file_context` (diff_parser.py 74-95). -/
def get_file_context (diff : ParsedDiff) (path : String) (n w : Int) : String :=
  findFileContext path n w diff.files

/-- The claim's description of the per-file context, word for word: the
lines whose target line number lies within `window` of the requested line,
formatted as `"<line_no>: <text>"`, in original order. -/
def specContextLines (fc : FileChange) (n w : Int) : List String :=
  (fc.hunks.flatMap Hunk.lines).filterMap fun l =>
    match l.target_line_no with
    | none => none
    | some t => if |t - n| ≤ w then some (fmtContextLine t l.value) else none

lemma fileContextLines_eq_spec (fc : FileChange) (n w : Int)
    (hpos : ∀ l ∈ fc.hunks.flatMap Hunk.lines, ∀ t, l.target_line_no = some t → 0 < t) :
    fileContextLines fc n w = specContextLines fc n w := by
  unfold fileContextLines specContextLines
  apply List.filterMap_congr
  intro l hl
  cases hln : l.target_line_no with
  | none => rfl
  | some t =>
    have ht : 0 < t := hpos l hl t hln
    have htne : t ≠ 0 := ne_of_gt ht
    dsimp only
    by_cases habs : |t - n| ≤ w
    · rw [if_pos ⟨htne, habs⟩, if_pos habs]
    · rw [if_neg (fun hc => habs hc.2), if_neg habs]

lemma findFileContext_absent (path : String) (n w : Int) :
    ∀ files : List FileChange, (∀ fc ∈ files, fc.path ≠ path) →
    findFileContext path n w files = "" := by
  intro files
  induction files with
  | nil =>
    intro _
    rfl
  | cons fc rest ih =>
    intro h
    unfold findFileContext
    rw [if_neg (h fc (List.mem_cons_self _ _))]
    exact ih fun x hx => h x (List.mem_cons_of_mem _ hx)

lemma findFileContext_first (path : String) (n w : Int) (fc : FileChange)
    (post : List FileChange) (hpath : fc.path = path) :
    ∀ pre : List FileChange, (∀ fc2 ∈ pre, fc2.path ≠ path) →
    findFileContext path n w (pre ++ fc :: post) =
      String.intercalate "\n" (fileContextLines fc n w) := by
  intro pre
  induction pre with
  | nil =>
    intro _
    rw [List.nil_append]
    unfold findFileContext
    rw [if_pos hpath]
  | cons p pre ih =>
    intro h
    rw [List.cons_append]
    unfold findFileContext
    rw [if_neg (h p (List.mem_cons_self _ _))]
    exact ih fun x hx => h x (List.mem_cons_of_mem _ hx)

/-- C6: `get_file_context` returns the newline-joined concatenation, in
original order, of exactly those lines of the named file (the first file with
that path; positivity of recorded target line numbers holds for every diff
`parse` produces, since unidiff numbers lines from 1) whose target line
number is within `window` of the requested line, formatted
`"<line_no>: <text>"`; if no file has the path it returns "".  Purity and
determinism hold by construction: the embedding is a total function on an
immutable value. -/
theorem get_file_context_window (diff : ParsedDiff) (path : String) (n w : Int) :
    ((∀ fc ∈ diff.files, fc.path ≠ path) → get_file_context diff path n w = "") ∧
    (∀ pre fc post, diff.files = pre ++ fc :: post →
      (∀ fc2 ∈ pre, fc2.path ≠ path) → fc.path = path →
      (∀ l ∈ fc.hunks.flatMap Hunk.lines, ∀ t, l.target_line_no = some t → 0 < t) →
      get_file_context diff path n w =
        String.intercalate "\n" (specContextLines fc n w)) := by
  constructor
  · intro h
    exact findFileContext_absent path n w diff.files h
  · intro pre fc post hsplit hpre hpath hpos
    unfold get_file_context
    rw [hsplit, findFileContext_first path n w fc post hpath pre hpre,
      fileContextLines_eq_spec fc n w hpos]

/-- The hunk of the concrete diff used by the C6 witness. -/
def wHunk : Hunk :=
  { source_start := 1
    source_length := 3
    target_start := 1
    target_length := 4
    lines := [
      { line_type := " ", value := "import os", source_line_no := some 1, target_line_no := some 1 },
      { line_type := "-", value := "x = 1", source_line_no := some 2, target_line_no := none },
      { line_type := "+", value := "x = 2", target_line_no := some 2 },
      { line_type := "+", value := "y = 3", target_line_no := some 3 },
      { line_type := " ", value := "print(x)", source_line_no := some 3, target_line_no := some 4 }] }

/-- The file record of the concrete diff used by the C6 witness. -/
def wFile : FileChange :=
  { path := "app.py"
    additions := 2
    deletions := 1
    hunks := [wHunk] }

/-- A concrete parsed diff used by the C6 witness: one file, one hunk. -/
def wDiff : ParsedDiff :=
  { files := [wFile]
    raw_content := "diff" }

/-- Witness for C6 at `wDiff`: querying a missing path gives "", and querying
`app.py` around line 2 with window 1 gives exactly the in-window lines. -/
theorem get_file_context_window_witness :
    ((∀ fc ∈ wDiff.files, fc.path ≠ "gone.py") ∧
      get_file_context wDiff "gone.py" 2 1 = "") ∧
    (wDiff.files = [] ++ wFile :: [] ∧
      get_file_context wDiff "app.py" 2 1 =
        String.intercalate "\n" (specContextLines wFile 2 1) ∧
      get_file_context wDiff "app.py" 2 1 = "1: import os\n2: x = 2\n3: y = 3") := by
  refine ⟨⟨by decide, ?_⟩, ⟨by decide, ?_, by decide⟩⟩
  · exact (get_file_context_window wDiff "gone.py" 2 1).1 (by decide)
  · exact (get_file_context_window wDiff "app.py" 2 1).2 [] wFile []
      (by decide) (by decide) (by decide) (by decide)

/-- The accepted bucket of `_build_review_prompt` (review_service.py
118-122): for each similar review with action "accept", the line
`"- " + suggestion`. -/
def acceptedPatterns (similar : List SimilarReview) : List String :=
  (similar.filter fun r => r.action == "accept").map fun r => "- " ++ r.suggestion

/-- The rejected bucket (review_service.py 123-124). -/
def rejectedPatterns (similar : List SimilarReview) : List String :=
  (similar.filter fun r => r.action == "reject").map fun r => "- " ++ r.suggestion

/-- The `learned_context` string (review_service.py 116-131): empty when the
list is empty or when both buckets are empty; otherwise the header plus one
block per nonempty bucket, each listing at most the first 3 pattern lines. -/
def learnedContext (similar : List SimilarReview) : String :=
  if similar.isEmpty then ""
  else
    let accepted := acceptedPatterns similar
    let rejected := rejectedPatterns similar
    if accepted.isEmpty && rejected.isEmpty then ""
    else
      "\n\n## Learned Preferences:\n"
        ++ (if accepted.isEmpty then ""
            else "User typically accepts:\n" ++ String.intercalate "\n" (accepted.take 3) ++ "\n")
        ++ (if rejected.isEmpty then ""
            else "User typically rejects:\n" ++ String.intercalate "\n" (rejected.take 3) ++ "\n")

/-- The fixed template text before `{learned_context}` (review_service.py
133-148), with the file path and code context interpolated. -/
def promptHead (file_path code_context : String) : String :=
  "You are an expert code reviewer. Analyze the following code changes and provide specific, actionable suggestions.\n\n## File: "
    ++ file_path
    ++ "\n\n## Code Changes:\n```diff\n"
    ++ code_context
    ++ "\n```\n\n## Review Guidelines:\n1. Focus on: bugs, performance issues, security vulnerabilities, best practices, and code clarity\n2. Be specific and actionable - suggest concrete improvements\n3. Prioritize important issues over style nitpicks\n4. Provide confidence scores (0-100) for each suggestion\n5. Categorize suggestions: bug, performance, security, best_practice, readability, style\n"

/-- The fixed template text after `{learned_context}` (review_service.py
150-162). -/
def promptTail : String :=
  "\n\n## Output Format (JSON array):\n[\n  \x7b\n    \"line_number\": <int>,\n    \"end_line_number\": <int or null>,\n    \"category\": \"<category>\",\n    \"suggestion\": \"<detailed suggestion>\",\n    \"confidence\": <0-100>,\n    \"code_snippet\": \"<relevant code snippet>\"\n  \x7d\n]\n\nProvide only the JSON array, no additional text."

/-- `_build_review_prompt` (review_service.py 103-164). -/
def build_review_prompt (code_context file_path : String)
    (similar : List SimilarReview) : String :=
  promptHead file_path code_context ++ learnedContext similar ++ promptTail

/-- The claim's description of the guidance section, assembled from the
already-truncated accepted and rejected pattern lists. -/
def guidanceSection (acc rej : List String) : String :=
  if acc = [] ∧ rej = [] then ""
  else
    "\n\n## Learned Preferences:\n"
      ++ (if acc = [] then ""
          else "User typically accepts:\n" ++ String.intercalate "\n" acc ++ "\n")
      ++ (if rej = [] then ""
          else "User typically rejects:\n" ++ String.intercalate "\n" rej ++ "\n")

lemma learnedContext_eq_guidance (similar : List SimilarReview) :
    learnedContext similar =
      guidanceSection ((acceptedPatterns similar).take 3) ((rejectedPatterns similar).take 3) := by
  by_cases hsim : similar = []
  · subst hsim
    simp [learnedContext, guidanceSection, acceptedPatterns, rejectedPatterns]
  · by_cases ha : acceptedPatterns similar = [] <;> by_cases hb : rejectedPatterns similar = []
    all_goals
      simp [learnedContext, guidanceSection, ha, hb, hsim, List.take_eq_nil_iff]

/-- C8: the generation prompt includes at most 3 accepted and at most 3
rejected suggestion texts as guidance (the buckets are truncated with [:3]),
and when the retrieved records yield no accepted and no rejected suggestion
the prompt contains no learned-preferences section or header at all: the
interpolated `learned_context` is the empty string and the prompt is exactly
head ++ tail. -/
theorem build_review_prompt_guidance (similar : List SimilarReview)
    (code_context file_path : String) :
    build_review_prompt code_context file_path similar =
      promptHead file_path code_context
        ++ guidanceSection ((acceptedPatterns similar).take 3)
            ((rejectedPatterns similar).take 3)
        ++ promptTail ∧
    ((acceptedPatterns similar).take 3).length ≤ 3 ∧
    ((rejectedPatterns similar).take 3).length ≤ 3 ∧
    (acceptedPatterns similar = [] → rejectedPatterns similar = [] →
      learnedContext similar = "" ∧
      build_review_prompt code_context file_path similar =
        promptHead file_path code_context ++ promptTail) := by
  refine ⟨?_, List.length_take_le _ _, List.length_take_le _ _, ?_⟩
  · unfold build_review_prompt
    rw [learnedContext_eq_guidance]
  · intro ha hb
    have hlc : learnedContext similar = "" := by
      rw [learnedContext_eq_guidance, ha, hb]
      simp [guidanceSection]
    refine ⟨hlc, ?_⟩
    unfold build_review_prompt
    rw [hlc]
    simp

/-- A similar review whose action is "edit", contributing to neither
guidance bucket; used by the C8 witness. -/
def editedReview : SimilarReview :=
  { code_context := "ctx", suggestion := "tweak", action := "edit",
    reason := "", category := "style", confidence := 55 }

/-- Witness for C8 at a concrete retrieved list whose only record was an
edit: both buckets are empty, so the prompt carries no guidance section. -/
theorem build_review_prompt_guidance_witness :
    acceptedPatterns [editedReview] = [] ∧
    rejectedPatterns [editedReview] = [] ∧
    learnedContext [editedReview] = "" ∧
    build_review_prompt "code" "app.py" [editedReview] =
      promptHead "app.py" "code" ++ promptTail := by
  refine ⟨by decide, by decide, ?_⟩
  have h := (build_review_prompt_guidance [editedReview] "code" "app.py").2.2.2
    (by decide) (by decide)
  exact h

/-- Per-category counters of `by_category` (stats_service.py 48). -/
structure CatCounts where
  accept : Nat := 0
  reject : Nat := 0
  edit : Nat := 0
deriving Repr, DecidableEq

/-- Per-confidence-range counters of `by_confidence` (stats_service.py 49). -/
structure ConfCounts where
  accept : Nat := 0
  reject : Nat := 0
deriving Repr, DecidableEq

/-- One entry of `recent_patterns` (stats_service.py 82-87). -/
structure RecentPattern where
  category : String
  action : String
  confidence : Int
  timestamp : String
deriving Repr, DecidableEq

/-- The dictionary returned by `get_statistics`.  The empty-store early
return carries only five keys; `accepts`, `rejects` and `edits` are present
only on the populated path, modelled with `Option`.  `acceptance_rate` is
the exact rational `accepts / total * 100`; Python's float `round(x, 2)` is
not modelled and no claim depends on the rate's value beyond the zero case. -/
structure StatsResult where
  total_feedback : Nat
  acceptance_rate : ℚ
  accepts : Option Nat := none
  rejects : Option Nat := none
  edits : Option Nat := none
  by_category : List (String × CatCounts)
  by_confidence : List (String × ConfCounts)
  recent_patterns : List RecentPattern
deriving Repr, DecidableEq

/-- The zeroed structure returned when no record carries feedback
(stats_service.py 33-40). -/
def zeroStats : StatsResult :=
  { total_feedback := 0
    acceptance_rate := 0
    by_category := []
    by_confidence := []
    recent_patterns := [] }

/-- The feedback filter (stats_service.py 29-31): keep records whose
`action` (default "pending") is terminal. -/
def isTerminalMd (m : Metadata) : Bool :=
  isTerminalAction (m.action.getD "pending")

/-- A defaultdict bump of `by_category[category][action] += 1`: a new key is
appended (Python dicts preserve insertion order), an existing key is updated
in place. -/
def bumpCat (action : String) : List (String × CatCounts) → String → List (String × CatCounts)
  | [], k =>
    [(k, { accept := if action = "accept" then 1 else 0
           reject := if action = "reject" then 1 else 0
           edit := if action = "edit" then 1 else 0 })]
  | (k2, v) :: rest, k =>
    if k2 = k then
      (k2, { accept := if action = "accept" then v.accept + 1 else v.accept
             reject := if action = "reject" then v.reject + 1 else v.reject
             edit := if action = "edit" then v.edit + 1 else v.edit }) :: rest
    else (k2, v) :: bumpCat action rest k

/-- Likewise for `by_confidence_range[range][action] += 1`. -/
def bumpConf (action : String) : List (String × ConfCounts) → String → List (String × ConfCounts)
  | [], k =>
    [(k, { accept := if action = "accept" then 1 else 0
           reject := if action = "reject" then 1 else 0 })]
  | (k2, v) :: rest, k =>
    if k2 = k then
      (k2, { accept := if action = "accept" then v.accept + 1 else v.accept
             reject := if action = "reject" then v.reject + 1 else v.reject }) :: rest
    else (k2, v) :: bumpConf action rest k

/-- `f"{(confidence // 20) * 20}-{(confidence // 20) * 20 + 19}"`
(stats_service.py 67), with Python's floor division. -/
def confKey (c : Int) : String :=
  toString (c.fdiv 20 * 20) ++ "-" ++ toString (c.fdiv 20 * 20 + 19)

/-- The per-item body of the counting loop (stats_service.py 51-69) applied
to the `by_category` dict. -/
def byCategoryFold (items : List Metadata) : List (String × CatCounts) :=
  items.foldl
    (fun d m =>
      let action := m.action.getD ""
      if action = "accept" ∨ action = "reject" ∨ action = "edit" then
        bumpCat action d (m.category.getD "unknown")
      else d)
    []

/-- The per-item body of the counting loop applied to `by_confidence`
(touched only for accept/reject). -/
def byConfidenceFold (items : List Metadata) : List (String × ConfCounts) :=
  items.foldl
    (fun d m =>
      let action := m.action.getD ""
      if action = "accept" ∨ action = "reject" then
        bumpConf action d (confKey (m.confidence.getD 50))
      else d)
    []

/-- `metadata.get("feedback_timestamp", metadata.get("timestamp", ""))`. -/
def fbTimestamp (m : Metadata) : String :=
  m.feedback_timestamp.getD (m.timestamp.getD "")

/-- `recent_patterns` (stats_service.py 73-87): the feedback items sorted by
feedback timestamp descending (Python's stable `sorted(..., reverse=True)`),
truncated to 10 and projected. -/
def recentPatterns (items : List Metadata) : List RecentPattern :=
  ((items.mergeSort fun a b => decide (fbTimestamp b ≤ fbTimestamp a)).take 10).map fun m =>
    { category := m.category.getD ""
      action := m.action.getD ""
      confidence := m.confidence.getD 0
      timestamp := fbTimestamp m }

/-- The statistics computed from the already-filtered feedback items
(stats_service.py 42-98). -/
def statsOfItems (feedback_items : List Metadata) : StatsResult :=
  if feedback_items.isEmpty then zeroStats
  else
    let total := feedback_items.length
    let naccepts := feedback_items.countP fun m => m.action.getD "" == "accept"
    let nrejects := feedback_items.countP fun m => m.action.getD "" == "reject"
    let nedits := feedback_items.countP fun m => m.action.getD "" == "edit"
    { total_feedback := total
      acceptance_rate := (naccepts : ℚ) / (total : ℚ) * 100
      accepts := some naccepts
      rejects := some nrejects
      edits := some nedits
      by_category := byCategoryFold feedback_items
      by_confidence := byConfidenceFold feedback_items
      recent_patterns := recentPatterns feedback_items }

/-- `get_statistics` (stats_service.py 21-105): filter the collection's
metadata to terminal-action records, then compute.  The early return fires
exactly when no record carries feedback.  The outer `try` never fires on
this pure pipeline, so the embedding is the happy path, total by
construction (the claim's "never propagates a failure"). -/
def get_statistics (metadatas : List Metadata) : StatsResult :=
  statsOfItems (metadatas.filter isTerminalMd)

/-- C9: on a store with no terminal-action record `get_statistics` returns
exactly the zeroed structure (total_feedback 0, acceptance_rate 0, empty
category and confidence maps, no recent patterns) and raises no error; and
pending (or action-less) records never contribute to any count: the result
is unchanged when they are dropped from the input. -/
theorem get_statistics_empty_zero_and_pending_free (metadatas : List Metadata) :
    ((∀ m ∈ metadatas, isTerminalMd m = false) → get_statistics metadatas = zeroStats) ∧
    get_statistics metadatas = get_statistics (metadatas.filter isTerminalMd) := by
  constructor
  · intro h
    have hfil : metadatas.filter isTerminalMd = [] := by
      rw [List.filter_eq_nil_iff]
      intro m hm
      rw [h m hm]
      exact Bool.false_ne_true
    unfold get_statistics
    rw [hfil]
    rfl
  · unfold get_statistics
    rw [List.filter_filter]
    congr 1
    apply List.filter_congr
    intro m _
    rw [Bool.and_self]

/-- A record with no action key at all, used by the C9 witness. -/
def mdNoAction : Metadata :=
  { review_id := some "r2", suggestion_id := some "s3", category := some "bug",
    confidence := some 70 }

/-- Witness for C9 at a concrete store holding one pending record and one
record with no recorded action: the statistics are exactly the zero
structure. -/
theorem get_statistics_empty_zero_and_pending_free_witness :
    (∀ m ∈ [mdPending, mdNoAction], isTerminalMd m = false) ∧
    get_statistics [mdPending, mdNoAction] = zeroStats := by
  refine ⟨by decide, ?_⟩
  exact (get_statistics_empty_zero_and_pending_free [mdPending, mdNoAction]).1 (by decide)

/-- A review summary as returned by `get_review` (vector_store.py 236-241).
The per-file suggestion grouping of the `files` key is referenced by no
claim and is not modelled; `review_id`, `created_at` and `suggestion_count`
are. -/
structure ReviewSummary where
  review_id : String
  created_at : String
  suggestion_count : Nat
deriving Repr, DecidableEq

/-- `timestamps = [m.get("timestamp", "") for m in metadatas if
m.get("timestamp")]` (vector_store.py 233): the truthy (present, nonempty)
timestamps of the review's records. -/
def reviewTimestamps (recs : List StoreRec) : List String :=
  recs.filterMap fun r =>
    match r.metadata.timestamp with
    | none => none
    | some t => if t = "" then none else some t

/-- `min(timestamps) if timestamps else datetime.utcnow().isoformat()`
(vector_store.py 234); `now` is the external clock value. -/
def minTimestamp : List String → String → String
  | [], now => now
  | t :: ts, _ => ts.foldl min t

/-- `get_review` (vector_store.py 193-244): the records matching the review
id give the summary; no matching record gives `None`. -/
def get_review (store : Store) (rid : String) (now : String) : Option ReviewSummary :=
  let recs := store.filter fun r => r.metadata.review_id == some rid
  if recs.isEmpty then none
  else
    some { review_id := rid
           created_at := minTimestamp (reviewTimestamps recs) now
           suggestion_count := recs.length }

/-- `get_recent_reviews` (vector_store.py 161-191).  `idOrder` is the order
in which Python's `list(review_ids)` enumerates the set of distinct review
ids; set iteration order is arbitrary (hash-dependent), so it is an explicit
input constrained by `isIdEnumeration`.  The source truncates this
enumeration to `limit` BEFORE fetching and sorting: the sort by `created_at`
descending happens on the already-truncated selection. -/
def get_recent_reviews (store : Store) (idOrder : List String) (limit : Nat)
    (now : String) : List ReviewSummary :=
  ((idOrder.take limit).filterMap fun rid => get_review store rid now).mergeSort
    fun a b => decide (b.created_at ≤ a.created_at)

/-- `idOrder` is a legitimate enumeration of `review_ids` (vector_store.py
175-178) when every listed id occurs as some record's `review_id` and every
recorded `review_id` is listed; together with `Nodup` this says `idOrder`
lists the set exactly once, in some order. -/
def isIdEnumeration (store : Store) (idOrder : List String) : Bool :=
  idOrder.all (fun rid => store.any fun r => r.metadata.review_id == some rid) &&
  store.all fun r =>
    match r.metadata.review_id with
    | none => true
    | some rid => idOrder.contains rid

lemma get_review_id (store : Store) (rid now : String) (s : ReviewSummary)
    (h : get_review store rid now = some s) : s.review_id = rid := by
  simp only [get_review] at h
  by_cases hemp : (store.filter fun r => r.metadata.review_id == some rid).isEmpty
  · rw [if_pos hemp] at h
    exact absurd h (by simp)
  · rw [if_neg hemp] at h
    have h2 := Option.some_inj.mp h
    rw [← h2]

lemma reviewIds_sublist (store : Store) (now : String) :
    ∀ l : List String,
      ((l.filterMap fun rid => get_review store rid now).map ReviewSummary.review_id).Sublist l := by
  intro l
  induction l with
  | nil => simp
  | cons rid rest ih =>
    cases h : get_review store rid now with
    | none =>
      have hstep : List.filterMap (fun rid2 => get_review store rid2 now) (rid :: rest) =
          List.filterMap (fun rid2 => get_review store rid2 now) rest :=
        List.filterMap_cons_none h
      rw [hstep]
      exact ih.cons _
    | some s =>
      have hstep : List.filterMap (fun rid2 => get_review store rid2 now) (rid :: rest) =
          s :: List.filterMap (fun rid2 => get_review store rid2 now) rest :=
        List.filterMap_cons_some h
      rw [hstep, List.map_cons, get_review_id store rid now s h]
      exact ih.cons₂ _

/-- C7 (amended): `get_recent_reviews` returns at most `limit` summaries, of
distinct review ids, sorted by creation time descending among themselves;
but the selected ids are the first `limit` of the arbitrary set-enumeration
order, chosen before sorting, not the `limit` most recent. -/
theorem get_recent_reviews_sorted_distinct_limited (store : Store)
    (idOrder : List String) (limit : Nat) (now : String) (hnd : idOrder.Nodup) :
    (get_recent_reviews store idOrder limit now).length ≤ limit ∧
    ((get_recent_reviews store idOrder limit now).map ReviewSummary.review_id).Nodup ∧
    (get_recent_reviews store idOrder limit now).Pairwise
      (fun a b => b.created_at ≤ a.created_at) ∧
    ∀ s ∈ get_recent_reviews store idOrder limit now, s.review_id ∈ idOrder.take limit := by
  have hperm :
      (get_recent_reviews store idOrder limit now).Perm
        ((idOrder.take limit).filterMap fun rid => get_review store rid now) :=
    List.mergeSort_perm _ _
  refine ⟨?_, ?_, ?_, ?_⟩
  · rw [hperm.length_eq]
    exact le_trans (List.length_filterMap_le _ _) (List.length_take_le _ _)
  · have htake : (idOrder.take limit).Nodup := (List.take_sublist _ _).nodup hnd
    have hbase :
        (((idOrder.take limit).filterMap fun rid => get_review store rid now).map
          ReviewSummary.review_id).Nodup :=
      (reviewIds_sublist store now (idOrder.take limit)).nodup htake
    exact ((hperm.map ReviewSummary.review_id).nodup_iff).mpr hbase
  · have htrans : ∀ a b c : ReviewSummary,
        decide (b.created_at ≤ a.created_at) = true →
        decide (c.created_at ≤ b.created_at) = true →
        decide (c.created_at ≤ a.created_at) = true := by
      intro a b c h1 h2
      exact decide_eq_true (le_trans (of_decide_eq_true h2) (of_decide_eq_true h1))
    have htotal : ∀ a b : ReviewSummary,
        (decide (b.created_at ≤ a.created_at) || decide (a.created_at ≤ b.created_at)) = true := by
      intro a b
      rcases le_total b.created_at a.created_at with h | h
      · rw [decide_eq_true h]
        rfl
      · rw [decide_eq_true h]
        simp
    have hpw := List.sorted_mergeSort htrans htotal
      ((idOrder.take limit).filterMap fun rid => get_review store rid now)
    exact hpw.imp fun h => of_decide_eq_true h
  · intro s hs
    have hmem : s ∈ (idOrder.take limit).filterMap fun rid => get_review store rid now :=
      hperm.mem_iff.mp hs
    obtain ⟨rid, hrid, hsome⟩ := List.mem_filterMap.mp hmem
    rw [get_review_id store rid now s hsome]
    exact hrid

/-- An older review's record, used by the C7 counterexample. -/
def recOld : StoreRec :=
  { doc_id := "dA"
    document := "ctxA"
    metadata := { review_id := some "rA", suggestion_id := some "s1", timestamp := some "2024-01-01T00:00:00", action := some "pending" } }

/-- A newer review's record, used by the C7 counterexample. -/
def recNew : StoreRec :=
  { doc_id := "dB"
    document := "ctxB"
    metadata := { review_id := some "rB", suggestion_id := some "s2", timestamp := some "2024-01-02T00:00:00", action := some "pending" } }

/-- The two-review store of the C7 counterexample. -/
def cexStore : Store := [recOld, recNew]

/-- A legitimate set-enumeration order that lists the older review first. -/
def cexOrder : List String := ["rA", "rB"]

/-- Counterexample to C7 as stated: with two stored reviews and limit 1, the
enumeration is truncated to one id before any timestamp is consulted, so the
single returned summary is the OLDER review `rA`, not the most recent `rB`
— even though `rB`'s creation time is strictly later. -/
theorem get_recent_reviews_misses_most_recent :
    (cexOrder.Nodup ∧ isIdEnumeration cexStore cexOrder = true) ∧
    (get_recent_reviews cexStore cexOrder 1 "2024-01-03T00:00:00").map
      ReviewSummary.review_id = ["rA"] ∧
    (get_review cexStore "rA" "2024-01-03T00:00:00").map ReviewSummary.created_at =
      some "2024-01-01T00:00:00" ∧
    (get_review cexStore "rB" "2024-01-03T00:00:00").map ReviewSummary.created_at =
      some "2024-01-02T00:00:00" ∧
    ("2024-01-01T00:00:00" : String) < "2024-01-02T00:00:00" := by
  refine ⟨⟨by decide, by decide⟩, ?_, by decide, by decide, ?_⟩
  · have hbase : (cexOrder.take 1).filterMap
        (fun rid => get_review cexStore rid "2024-01-03T00:00:00") =
        [{ review_id := "rA", created_at := "2024-01-01T00:00:00", suggestion_count := 1 }] := by
      decide
    unfold get_recent_reviews
    rw [hbase]
    have hsing := List.perm_singleton.mp
      (List.mergeSort_perm
        [({ review_id := "rA", created_at := "2024-01-01T00:00:00",
            suggestion_count := 1 } : ReviewSummary)]
        fun a b => decide (b.created_at ≤ a.created_at))
    rw [hsing]
    rfl
  · rw [String.lt_iff_toList_lt]
    decide

/-- Witness for the amended C7 at the concrete two-review store. -/
theorem get_recent_reviews_sorted_distinct_limited_witness :
    cexOrder.Nodup ∧
    ((get_recent_reviews cexStore cexOrder 1 "now").length ≤ 1 ∧
      ((get_recent_reviews cexStore cexOrder 1 "now").map ReviewSummary.review_id).Nodup ∧
      (get_recent_reviews cexStore cexOrder 1 "now").Pairwise
        (fun a b => b.created_at ≤ a.created_at) ∧
      ∀ s ∈ get_recent_reviews cexStore cexOrder 1 "now",
        s.review_id ∈ cexOrder.take 1) := by
  refine ⟨by decide, ?_⟩
  exact get_recent_reviews_sorted_distinct_limited cexStore cexOrder 1 "now" (by decide)

end ReviewerFast
